import Mathlib

/-!
Shallow embedding of `termsandconditions/models.py` (django-termsandconditions).

The two Django models become record types holding the columns the queries
read; the ORM/raw-SQL query helpers on `TermsAndConditions` become functions
over an explicit database snapshot (`Db`) and an explicit process-wide cache
(`Cache`).  Timestamps are `Nat`; `timezone.now()` is the `now` field of the
snapshot.  Django/database exceptions are modelled by `DbErr`; an operation
that can let an exception escape returns `Except DbErr _`.  The
startup/migration race ("table does not exist yet") is modelled by the
`schemaOk` flag: when it is `false` every operation that touches a table
raises `programmingError`, exactly where the real ORM would raise
`django.db.utils.ProgrammingError`.  Log output (`LOGGER.error` /
`LOGGER.warning`) is returned as a list of message strings where a claim
depends on it.
-/

/-- Row of the `TermsAndConditions` model (table
`termsandconditions_termsandconditions`).  Only the columns read by the
embedded queries are kept: `id` (the implicit primary key), `slug`, and the
nullable activation timestamp `date_active`.  The remaining columns (`name`,
`version_number`, `text`, `info`, `date_created`, the `users` M2M) are never
consulted by any of the query helpers. -/
structure TermsAndConditions where
  id : Nat
  slug : String
  date_active : Option Nat
deriving DecidableEq, Repr

/-- Row of the `UserTermsAndConditions` join model.  `user` and `terms` are
foreign keys, modelled by their target ids; both columns are non-nullable in
the schema.  `ip_address` and `date_accepted` are never consulted by the
query helpers. -/
structure UserTermsAndConditions where
  user : Nat
  terms_id : Nat
deriving DecidableEq, Repr

/-- Exceptions that the embedded operations can raise:
`DoesNotExist` / `MultipleObjectsReturned` from `objects.get` and
`objects.latest`, `django.db.utils.ProgrammingError` from querying a table
that has not been migrated yet, and `TypeError` (caught in two places by the
source; never actually raised by the embedded operations). -/
inductive DbErr where
  | doesNotExist
  | multipleObjectsReturned
  | programmingError
  | typeError
deriving DecidableEq, Repr

/-- A snapshot of the relational store together with the clock:
the rows of the two tables, the value of `timezone.now()`, and whether the
schema (tables) exists yet (`schemaOk = false` models the
startup/migration race). -/
structure Db where
  terms : List TermsAndConditions
  userterms : List UserTermsAndConditions
  now : Nat
  schemaOk : Bool

/-- The process-wide cache, one field per cache key used by the source:
`active_terms sl` models key `'tandc.active_terms_' + sl`,
`active_terms_ids` key `'tandc.active_terms_ids'`,
`active_terms_list` key `'tandc.active_terms_list'`, and
`not_agreed_terms` key `'tandc_not_agreed_terms'` (note: that last key does
not mention the user). `none` means the key is absent (`cache.get` returns
`None`). -/
structure Cache where
  active_terms : String → Option TermsAndConditions
  active_terms_ids : Option (List Nat)
  active_terms_list : Option (List TermsAndConditions)
  not_agreed_terms : Option (List TermsAndConditions)

/-- The cache with every key absent. -/
def Cache.empty : Cache :=
  { active_terms := fun _ => none
    active_terms_ids := none
    active_terms_list := none
    not_agreed_terms := none }

instance {ε α : Type} [DecidableEq ε] [DecidableEq α] : DecidableEq (Except ε α)
  | .ok a, .ok b =>
    if h : a = b then .isTrue (by rw [h]) else .isFalse (by simp [h])
  | .ok _, .error _ => .isFalse (by simp)
  | .error _, .ok _ => .isFalse (by simp)
  | .error a, .error b =>
    if h : a = b then .isTrue (by rw [h]) else .isFalse (by simp [h])

/-- The filter of `get_active`: `date_active__isnull=False,
date_active__lte=timezone.now()`. -/
def TermsAndConditions.activeAt (t : TermsAndConditions) (now : Nat) : Bool :=
  match t.date_active with
  | none => false
  | some d => d ≤ now

/-- The WHERE clause of the raw SQL in `get_active_terms_ids`:
`date_active IS NOT NULL AND date_active < %s` — note the strict `<`,
unlike the `__lte` used by `get_active`. -/
def TermsAndConditions.strictlyActiveAt (t : TermsAndConditions) (now : Nat) : Bool :=
  match t.date_active with
  | none => false
  | some d => d < now

/-- Date used for maximisation; only ever applied to rows whose
`date_active` is non-null (both filters above reject null). -/
def dateOf (t : TermsAndConditions) : Nat :=
  t.date_active.getD 0

/-- `queryset.latest('date_active')` on a list of rows: the row with the
maximal `date_active`, or `none` when the queryset is empty (the ORM then
raises `DoesNotExist`; the caller turns that into its own behaviour). -/
def latestByDateActive : List TermsAndConditions → Option TermsAndConditions
  | [] => none
  | t :: ts =>
    match latestByDateActive ts with
    | none => some t
    | some m => if dateOf m < dateOf t then some t else some m

/-- The string order used by `ORDER BY slug`: lexicographic on the
character lists (the database's binary collation; bytewise UTF-8 order
coincides with codepoint order on valid UTF-8). -/
def slugLe (a b : String) : Prop :=
  a.data ≤ b.data

instance : DecidableRel slugLe :=
  fun a b => inferInstanceAs (Decidable (a.data ≤ b.data))

instance : IsTotal String slugLe :=
  ⟨fun a b => le_total a.data b.data⟩

instance : IsTrans String slugLe :=
  ⟨fun _ _ _ hab hbc => le_trans hab hbc⟩

instance : DecidableRel (fun a b : TermsAndConditions => slugLe a.slug b.slug) :=
  fun a b => inferInstanceAs (Decidable (a.slug.data ≤ b.slug.data))

instance : IsTotal TermsAndConditions (fun a b => slugLe a.slug b.slug) :=
  ⟨fun a b => le_total a.slug.data b.slug.data⟩

instance : IsTrans TermsAndConditions (fun a b => slugLe a.slug b.slug) :=
  ⟨fun _ _ _ hab hbc => le_trans hab hbc⟩

/-- `ORDER BY slug` on a list of rows. -/
def sortBySlug (l : List TermsAndConditions) : List TermsAndConditions :=
  List.insertionSort (fun a b => slugLe a.slug b.slug) l

/-- The distinct slugs produced by `GROUP BY slug ORDER BY slug` over the
rows passing the raw SQL WHERE clause of `get_active_terms_ids`. -/
def sortedActiveSlugs (db : Db) : List String :=
  List.insertionSort slugLe
    ((db.terms.filter (fun t => t.strictlyActiveAt db.now)).map (fun t => t.slug)).dedup

/-- Result rows of the raw query
`SELECT id, slug, max(date_active) FROM termsandconditions_termsandconditions
WHERE date_active IS NOT NULL AND date_active < %s GROUP BY slug ORDER BY slug`:
one row per slug, the one carrying the group's maximal `date_active`
(SQLite's bare-column semantics: the non-aggregated `id` comes from a row
achieving the `max`). -/
def groupMaxRows (db : Db) : List TermsAndConditions :=
  (sortedActiveSlugs db).filterMap
    (fun sl =>
      latestByDateActive (db.terms.filter (fun t => t.slug == sl && t.strictlyActiveAt db.now)))

/-- `TermsAndConditions.get_active(slug)`.  Returns the result (the active
row, `none` after the logged `DoesNotExist`, or a propagated exception), the
updated cache, and the log messages emitted.  The source catches only
`TermsAndConditions.DoesNotExist`; a `ProgrammingError` from a missing
schema is not caught and escapes. -/
def TermsAndConditions.get_active (db : Db) (c : Cache) (slug : String) :
    Except DbErr (Option TermsAndConditions) × Cache × List String :=
  match c.active_terms slug with
  | some t => (.ok (some t), c, [])
  | none =>
    if db.schemaOk then
      match latestByDateActive
          (db.terms.filter (fun t => t.slug == slug && t.activeAt db.now)) with
      | some t =>
        (.ok (some t),
          { c with active_terms := fun sl => if sl == slug then some t else c.active_terms sl },
          [])
      | none =>
        (.ok none, c, ["Requested Terms and Conditions that Have Not Been Created."])
    else
      (.error .programmingError, c, [])

/-- `TermsAndConditions.get_active_terms_ids()`.  A cached empty list is
falsy in Python (`if not active_terms_ids`), so only a non-empty cached list
is served.  `utils.ProgrammingError` is caught: the accumulated (empty) list
is returned after a logged warning. -/
def TermsAndConditions.get_active_terms_ids (db : Db) (c : Cache) :
    List Nat × Cache × List String :=
  match c.active_terms_ids with
  | some (i :: is) => (i :: is, c, [])
  | _ =>
    if db.schemaOk then
      let ids := (groupMaxRows db).map (fun t => t.id)
      (ids, { c with active_terms_ids := some ids }, [])
    else
      ([], c,
        ["Unable to find active terms ids because terms and conditions tables not initialized."])

/-- `TermsAndConditions.get_active_terms_list()`.  A cached empty queryset is
falsy, so only a non-empty cached list is served.  On `ProgrammingError` the
source returns the initial `None` after a logged warning. -/
def TermsAndConditions.get_active_terms_list (db : Db) (c : Cache) :
    Option (List TermsAndConditions) × Cache × List String :=
  match c.active_terms_list with
  | some (t :: ts) => (some (t :: ts), c, [])
  | _ =>
    let p := TermsAndConditions.get_active_terms_ids db c
    if db.schemaOk then
      let l := sortBySlug (db.terms.filter (fun t => p.1.contains t.id))
      (some l, { p.2.1 with active_terms_list := some l }, p.2.2)
    else
      (none, p.2.1,
        p.2.2 ++
          ["Unable to find active terms list because terms and conditions tables not initialized."])

/-- `UserTermsAndConditions.objects.get(user=user, terms=terms)`.
`terms` is the id of the referenced row, or `none` when the Python argument
is `None` (Django then filters on `terms IS NULL`, which no row of the
non-nullable column satisfies).  Raises `DoesNotExist` on zero matches,
`MultipleObjectsReturned` on two or more, `ProgrammingError` when the table
does not exist. -/
def UserTermsAndConditions.objects_get (db : Db) (user : Nat) (terms : Option Nat) :
    Except DbErr UserTermsAndConditions :=
  if db.schemaOk then
    match db.userterms.filter (fun ut => ut.user == user && some ut.terms_id == terms) with
    | [] => .error .doesNotExist
    | [ut] => .ok ut
    | _ :: _ :: _ => .error .multipleObjectsReturned
  else
    .error .programmingError

/-- `TermsAndConditions.agreed_to_terms(user, terms)`.  Catches
`DoesNotExist` and `TypeError` (both → `False`); `MultipleObjectsReturned`
and `ProgrammingError` are not caught and escape. -/
def TermsAndConditions.agreed_to_terms (db : Db) (user : Nat)
    (terms : Option TermsAndConditions) : Except DbErr Bool :=
  match UserTermsAndConditions.objects_get db user (terms.map (fun t => t.id)) with
  | .ok _ => .ok true
  | .error .doesNotExist => .ok false
  | .error .typeError => .ok false
  | .error e => .error e

/-- `TermsAndConditions.agreed_to_latest(user, slug)`.  Looks up the active
version via `get_active` (threading the cache) and checks for an acceptance
row.  Catches `MultipleObjectsReturned` (→ `True`), `DoesNotExist` and
`TypeError` (→ `False`); a `ProgrammingError` (from `get_active`'s query or
from the `objects.get`) matches none of those clauses and escapes. -/
def TermsAndConditions.agreed_to_latest (db : Db) (c : Cache) (user : Nat) (slug : String) :
    Except DbErr Bool × Cache :=
  let p := TermsAndConditions.get_active db c slug
  match p.1 with
  | .error e => (.error e, p.2.1)
  | .ok active =>
    match UserTermsAndConditions.objects_get db user (active.map (fun t => t.id)) with
    | .ok _ => (.ok true, p.2.1)
    | .error .multipleObjectsReturned => (.ok true, p.2.1)
    | .error .doesNotExist => (.ok false, p.2.1)
    | .error .typeError => (.ok false, p.2.1)
    | .error e => (.error e, p.2.1)

/-- `TermsAndConditions.get_active_terms_not_agreed_to(user)`.  Cached under
the fixed key `'tandc_not_agreed_terms'` — the key does not mention `user` —
and a cached empty queryset is falsy, so only a non-empty cached list is
served.  The computation filters the terms table to the active ids and
excludes rows having an acceptance row by this user
(`exclude(userterms__in=UserTermsAndConditions.objects.filter(user=user)
.values_list('id'))`), ordered by slug.  The source catches `TypeError` and
`UserTermsAndConditions.DoesNotExist` (returning `None`); neither is ever
raised by the embedded queryset operations, while a `ProgrammingError` from
a missing schema matches neither clause and escapes. -/
def TermsAndConditions.get_active_terms_not_agreed_to (db : Db) (c : Cache) (user : Nat) :
    Except DbErr (List TermsAndConditions) × Cache :=
  match c.not_agreed_terms with
  | some (t :: ts) => (.ok (t :: ts), c)
  | _ =>
    let p := TermsAndConditions.get_active_terms_ids db c
    if db.schemaOk then
      let l := sortBySlug
        ((db.terms.filter (fun t => p.1.contains t.id)).filter
          (fun t => !(db.userterms.any (fun ut => ut.user == user && ut.terms_id == t.id))))
      (.ok l, { p.2.1 with not_agreed_terms := some l })
    else
      (.error .programmingError, p.2.1)

/-! Concrete database snapshots used to instantiate the verified statements. -/

/-- One slug with a draft (`date_active` null) and two activated versions
(`t1 = 1 < t2 = 2 ≤ now = 5`). -/
def dbThreeVersions : Db :=
  { terms := [⟨1, "site-terms", none⟩, ⟨2, "site-terms", some 1⟩, ⟨3, "site-terms", some 2⟩]
    userterms := []
    now := 5
    schemaOk := true }

/-- A single version whose `date_active` equals the current clock value. -/
def dbBoundary : Db :=
  { terms := [⟨1, "s", some 10⟩]
    userterms := []
    now := 10
    schemaOk := true }

/-- Two slugs, each with two activated versions, exercising the per-slug
group-by-max. -/
def dbTwoSlugs : Db :=
  { terms := [⟨1, "b", some 3⟩, ⟨2, "a", some 1⟩, ⟨3, "a", some 2⟩]
    userterms := []
    now := 5
    schemaOk := true }

/-- The startup/migration race: the tables do not exist yet. -/
def dbNoSchema : Db :=
  { terms := []
    userterms := []
    now := 0
    schemaOk := false }

/-- One active version accepted by user 7. -/
def dbAccepted : Db :=
  { terms := [⟨1, "site-terms", some 1⟩]
    userterms := [⟨7, 1⟩]
    now := 5
    schemaOk := true }

/-- Two active slugs `a` and `b`; user 7 accepted only slug `a`'s active
version. -/
def dbPartialAccept : Db :=
  { terms := [⟨1, "a", some 1⟩, ⟨2, "b", some 2⟩]
    userterms := [⟨7, 1⟩]
    now := 5
    schemaOk := true }

/-- Two active slugs; user 1 accepted nothing, user 2 accepted slug `a`'s
active version. -/
def dbTwoUsers : Db :=
  { terms := [⟨1, "a", some 1⟩, ⟨2, "b", some 2⟩]
    userterms := [⟨2, 1⟩]
    now := 5
    schemaOk := true }

/-- Empty tables with the schema in place. -/
def dbEmpty : Db :=
  { terms := []
    userterms := []
    now := 5
    schemaOk := true }

/-- One slug with only a draft and a future-dated version: nothing active. -/
def dbNothingActive : Db :=
  { terms := [⟨1, "site-terms", none⟩, ⟨2, "site-terms", some 9⟩]
    userterms := []
    now := 5
    schemaOk := true }

/-- A cache whose list-valued keys are present but hold empty values —
every entry is falsy for Python's `if not cached:` test. -/
def cacheWithEmpties : Cache :=
  { active_terms := fun _ => none
    active_terms_ids := some []
    active_terms_list := some []
    not_agreed_terms := some [] }

/-! Auxiliary lemmas about the embedded query building blocks. -/

/-- The row returned by `latest('date_active')` belongs to the queryset. -/
theorem latestByDateActive_mem {l : List TermsAndConditions} {m : TermsAndConditions}
    (h : latestByDateActive l = some m) : m ∈ l := by
  induction l with
  | nil => simp [latestByDateActive] at h
  | cons t ts ih =>
    simp only [latestByDateActive] at h
    cases hrec : latestByDateActive ts with
    | none =>
      rw [hrec] at h
      cases h
      exact List.mem_cons_self _ _
    | some m' =>
      rw [hrec] at h
      by_cases hd : dateOf m' < dateOf t
      · simp only [hd, if_true] at h
        cases h
        exact List.mem_cons_self _ _
      · simp only [hd, if_false] at h
        cases h
        exact List.mem_cons_of_mem _ (ih hrec)

/-- `latest` succeeds on a non-empty queryset. -/
theorem latestByDateActive_of_ne_nil {l : List TermsAndConditions} (h : l ≠ []) :
    ∃ m, latestByDateActive l = some m := by
  cases l with
  | nil => exact absurd rfl h
  | cons t ts =>
    simp only [latestByDateActive]
    cases hrec : latestByDateActive ts with
    | none => exact ⟨t, rfl⟩
    | some m' =>
      by_cases hd : dateOf m' < dateOf t
      · exact ⟨t, by simp [hd]⟩
      · exact ⟨m', by simp [hd]⟩

/-- The row returned by `latest('date_active')` carries the maximal date of
the queryset. -/
theorem latestByDateActive_le {l : List TermsAndConditions} :
    ∀ {m}, latestByDateActive l = some m → ∀ t ∈ l, dateOf t ≤ dateOf m := by
  induction l with
  | nil => intro m h; simp [latestByDateActive] at h
  | cons t ts ih =>
    intro m h x hx
    simp only [latestByDateActive] at h
    cases hrec : latestByDateActive ts with
    | none =>
      rw [hrec] at h
      cases h
      rcases List.mem_cons.mp hx with hx | hx
      · rw [hx]
      · exfalso
        have hne : ts ≠ [] := by
          intro he
          rw [he] at hx
          simp at hx
        obtain ⟨m'', hm''⟩ := latestByDateActive_of_ne_nil hne
        rw [hm''] at hrec
        cases hrec
    | some m' =>
      rw [hrec] at h
      by_cases hd : dateOf m' < dateOf t
      · simp only [hd, if_true] at h
        cases h
        rcases List.mem_cons.mp hx with hx | hx
        · rw [hx]
        · exact le_trans (ih hrec x hx) (le_of_lt hd)
      · simp only [hd, if_false] at h
        cases h
        rcases List.mem_cons.mp hx with hx | hx
        · rw [hx]; exact not_lt.mp hd
        · exact ih hrec x hx

/-- Claim C1: on a cache miss with the schema in place, for any slug having
at least one version with non-null `date_active ≤ now`, `get_active` returns
a stored row of that slug whose `date_active` is non-null, at most `now`,
and maximal among all such rows for that slug. -/
theorem C1_get_active_returns_max (db : Db) (c : Cache) (slug : String)
    (hc : c.active_terms slug = none) (hs : db.schemaOk = true)
    (t0 : TermsAndConditions) (ht0 : t0 ∈ db.terms) (hslug : t0.slug = slug)
    (hact : t0.activeAt db.now = true) :
    ∃ t, (TermsAndConditions.get_active db c slug).1 = .ok (some t) ∧
      t ∈ db.terms ∧ t.slug = slug ∧
      ∃ d, t.date_active = some d ∧ d ≤ db.now ∧
        ∀ t' ∈ db.terms, t'.slug = slug →
          ∀ d', t'.date_active = some d' → d' ≤ db.now → d' ≤ d := by
  have hfe : t0 ∈ db.terms.filter (fun t => t.slug == slug && t.activeAt db.now) := by
    rw [List.mem_filter]
    exact ⟨ht0, by simp [hslug, hact]⟩
  obtain ⟨m, hm⟩ := latestByDateActive_of_ne_nil (List.ne_nil_of_mem hfe)
  have hmem := latestByDateActive_mem hm
  rw [List.mem_filter, Bool.and_eq_true, beq_iff_eq] at hmem
  obtain ⟨hmt, hmslug, hmact⟩ := hmem
  cases hd : m.date_active with
  | none =>
    rw [TermsAndConditions.activeAt, hd] at hmact
    cases hmact
  | some d =>
    have hdn : d ≤ db.now := by
      rw [TermsAndConditions.activeAt, hd] at hmact
      exact of_decide_eq_true hmact
    refine ⟨m, ?_, hmt, hmslug, d, hd, hdn, ?_⟩
    · simp only [TermsAndConditions.get_active, hc, hs, if_true, hm]
    · intro t' ht' hslug' d' hd' hdn'
      have hft' : t' ∈ db.terms.filter (fun t => t.slug == slug && t.activeAt db.now) := by
        rw [List.mem_filter]
        refine ⟨ht', ?_⟩
        simp [hslug', TermsAndConditions.activeAt, hd', hdn']
      have := latestByDateActive_le hm t' hft'
      rw [dateOf, dateOf, hd, hd'] at this
      exact this

/-- Witness for C1: the slug `site-terms` with versions dated
`{null, 1, 2}` and `now = 5`; `get_active` returns the version dated `2`. -/
theorem C1_witness :
    (Cache.empty.active_terms "site-terms" = none ∧ dbThreeVersions.schemaOk = true ∧
      (⟨2, "site-terms", some 1⟩ : TermsAndConditions) ∈ dbThreeVersions.terms ∧
      (TermsAndConditions.get_active dbThreeVersions Cache.empty "site-terms").1 =
        .ok (some ⟨3, "site-terms", some 2⟩)) ∧
    (∃ t, (TermsAndConditions.get_active dbThreeVersions Cache.empty "site-terms").1 =
        .ok (some t) ∧
      t ∈ dbThreeVersions.terms ∧ t.slug = "site-terms" ∧
      ∃ d, t.date_active = some d ∧ d ≤ dbThreeVersions.now ∧
        ∀ t' ∈ dbThreeVersions.terms, t'.slug = "site-terms" →
          ∀ d', t'.date_active = some d' → d' ≤ dbThreeVersions.now → d' ≤ d) :=
  ⟨⟨rfl, rfl, by decide, by decide⟩,
    C1_get_active_returns_max dbThreeVersions Cache.empty "site-terms" rfl rfl
      ⟨2, "site-terms", some 1⟩ (by decide) rfl (by decide)⟩

/-- Claim C8: on a cache miss with the schema in place, for a slug with no
version having a non-null, non-future `date_active`, `get_active` returns
`none` (no exception, no row) and logs the error message. -/
theorem C8_get_active_none_and_logs (db : Db) (c : Cache) (slug : String)
    (hc : c.active_terms slug = none) (hs : db.schemaOk = true)
    (hno : ∀ t ∈ db.terms, t.slug = slug → t.activeAt db.now = false) :
    (TermsAndConditions.get_active db c slug).1 = .ok none ∧
    (TermsAndConditions.get_active db c slug).2.2 =
      ["Requested Terms and Conditions that Have Not Been Created."] := by
  have hfilter : db.terms.filter (fun t => t.slug == slug && t.activeAt db.now) = [] := by
    rw [List.filter_eq_nil_iff]
    intro t ht
    simp only [Bool.and_eq_true, beq_iff_eq, not_and]
    intro hsl
    rw [hno t ht hsl]
    simp
  constructor <;>
    simp only [TermsAndConditions.get_active, hc, hs, if_true, hfilter, latestByDateActive]

/-- Witness for C8: a slug having only a draft (`date_active` null) and a
future-dated version; the lookup yields `none` plus the logged error. -/
theorem C8_witness :
    (Cache.empty.active_terms "site-terms" = none ∧ dbNothingActive.schemaOk = true ∧
      (∀ t ∈ dbNothingActive.terms, t.slug = "site-terms" →
        t.activeAt dbNothingActive.now = false)) ∧
    ((TermsAndConditions.get_active dbNothingActive Cache.empty "site-terms").1 = .ok none ∧
      (TermsAndConditions.get_active dbNothingActive Cache.empty "site-terms").2.2 =
        ["Requested Terms and Conditions that Have Not Been Created."]) :=
  ⟨⟨rfl, rfl, by decide⟩,
    C8_get_active_none_and_logs dbNothingActive Cache.empty "site-terms" rfl rfl (by decide)⟩

/-- Counterexample to C3 as stated: with the schema missing (the
startup/migration race) and nothing cached, `get_active` does not return an
empty/none result — the `ProgrammingError` escapes to the caller, because
the source catches only `TermsAndConditions.DoesNotExist` there. -/
theorem C3_counterexample :
    (TermsAndConditions.get_active dbNoSchema Cache.empty "site-terms").1 =
      .error .programmingError := by decide

/-- Amended C3: in the startup/migration race, `get_active` propagates the
missing-schema `ProgrammingError` to its caller; only `get_active_terms_ids`
and `get_active_terms_list` degrade gracefully (empty list resp. `none`). -/
theorem C3_amended_schema_race (db : Db) (c : Cache) (slug : String)
    (hs : db.schemaOk = false) (hc : c.active_terms slug = none)
    (hi : c.active_terms_ids = none ∨ c.active_terms_ids = some [])
    (hl : c.active_terms_list = none ∨ c.active_terms_list = some []) :
    (TermsAndConditions.get_active db c slug).1 = .error .programmingError ∧
    (TermsAndConditions.get_active_terms_ids db c).1 = [] ∧
    (TermsAndConditions.get_active_terms_list db c).1 = none := by
  refine ⟨?_, ?_, ?_⟩
  · simp [TermsAndConditions.get_active, hc, hs]
  · rcases hi with hi | hi <;> simp [TermsAndConditions.get_active_terms_ids, hi, hs]
  · rcases hl with hl | hl <;>
      simp [TermsAndConditions.get_active_terms_list, hl, hs]

/-- Witness for the amended C3 at a concrete schema-less store. -/
theorem C3_witness :
    (dbNoSchema.schemaOk = false ∧ Cache.empty.active_terms "site-terms" = none) ∧
    ((TermsAndConditions.get_active dbNoSchema Cache.empty "site-terms").1 =
        .error .programmingError ∧
      (TermsAndConditions.get_active_terms_ids dbNoSchema Cache.empty).1 = [] ∧
      (TermsAndConditions.get_active_terms_list dbNoSchema Cache.empty).1 = none) :=
  ⟨⟨rfl, rfl⟩,
    C3_amended_schema_race dbNoSchema Cache.empty "site-terms" rfl rfl
      (Or.inl rfl) (Or.inl rfl)⟩

/-- Claim C7: `agreed_to_terms(user, None)` returns `False` without raising:
the `terms IS NULL` lookup matches no row of the non-nullable column, and
the resulting `DoesNotExist` is caught. -/
theorem C7_agreed_to_terms_none (db : Db) (user : Nat) (hs : db.schemaOk = true) :
    TermsAndConditions.agreed_to_terms db user none = .ok false := by
  have hfilter :
      db.userterms.filter (fun ut => ut.user == user && some ut.terms_id == none) = [] := by
    rw [List.filter_eq_nil_iff]
    intro ut hut
    have hbeq : (some ut.terms_id == (none : Option Nat)) = false := rfl
    simp [hbeq]
  simp [TermsAndConditions.agreed_to_terms, UserTermsAndConditions.objects_get, hs, hfilter]

/-- Witness for C7 at a concrete store and user. -/
theorem C7_witness :
    dbEmpty.schemaOk = true ∧
      TermsAndConditions.agreed_to_terms dbEmpty 7 none = .ok false :=
  ⟨rfl, C7_agreed_to_terms_none dbEmpty 7 rfl⟩

/-- Membership in the `(user, terms)` existence filter, spelled with
propositional equalities. -/
theorem userterms_filter_spec (db : Db) (user : Nat) (tid : Option Nat)
    (ut : UserTermsAndConditions) :
    ut ∈ db.userterms.filter (fun u => u.user == user && some u.terms_id == tid) ↔
      ut ∈ db.userterms ∧ ut.user = user ∧ some ut.terms_id = tid := by
  rw [List.mem_filter, Bool.and_eq_true, beq_iff_eq, beq_iff_eq]

/-- With the schema in place, `get_active` never raises: it yields either a
cached row, a freshly computed row, or `none`. -/
theorem get_active_ok (db : Db) (c : Cache) (slug : String) (hs : db.schemaOk = true) :
    ∃ o, (TermsAndConditions.get_active db c slug).1 = .ok o := by
  simp only [TermsAndConditions.get_active]
  cases hc : c.active_terms slug with
  | some t => exact ⟨some t, rfl⟩
  | none =>
    cases hl : latestByDateActive
        (db.terms.filter (fun t => t.slug == slug && t.activeAt db.now)) with
    | some t => exact ⟨some t, by simp [hs, hl]⟩
    | none => exact ⟨none, by simp [hs, hl]⟩

/-- Claim C10: in every cached helper a cached empty or null value is
treated as a cache miss, so each helper returns exactly what a fresh
(empty-cache) computation over the current store returns — an empty cached
value is never served. -/
theorem C10_empty_cache_is_miss (db : Db) (c : Cache) (slug : String) (user : Nat)
    (h1 : c.active_terms slug = none)
    (h2 : c.active_terms_ids = none ∨ c.active_terms_ids = some [])
    (h3 : c.active_terms_list = none ∨ c.active_terms_list = some [])
    (h4 : c.not_agreed_terms = none ∨ c.not_agreed_terms = some []) :
    (TermsAndConditions.get_active db c slug).1 =
      (TermsAndConditions.get_active db Cache.empty slug).1 ∧
    (TermsAndConditions.get_active_terms_ids db c).1 =
      (TermsAndConditions.get_active_terms_ids db Cache.empty).1 ∧
    (TermsAndConditions.get_active_terms_list db c).1 =
      (TermsAndConditions.get_active_terms_list db Cache.empty).1 ∧
    (TermsAndConditions.get_active_terms_not_agreed_to db c user).1 =
      (TermsAndConditions.get_active_terms_not_agreed_to db Cache.empty user).1 := by
  have hids : (TermsAndConditions.get_active_terms_ids db c).1 =
      (TermsAndConditions.get_active_terms_ids db Cache.empty).1 := by
    rcases h2 with h2 | h2 <;> cases hsch : db.schemaOk <;>
      simp [TermsAndConditions.get_active_terms_ids, h2, Cache.empty, hsch]
  refine ⟨?_, hids, ?_, ?_⟩
  · cases hsch : db.schemaOk
    · simp [TermsAndConditions.get_active, h1, Cache.empty, hsch]
    · cases hl : latestByDateActive
          (db.terms.filter (fun t => t.slug == slug && t.activeAt db.now)) <;>
        simp [TermsAndConditions.get_active, h1, Cache.empty, hsch, hl]
  · rcases h3 with h3 | h3 <;> cases hsch : db.schemaOk <;>
      simp [TermsAndConditions.get_active_terms_list, h3, Cache.empty, hsch, hids]
  · rcases h4 with h4 | h4 <;> cases hsch : db.schemaOk <;>
      simp [TermsAndConditions.get_active_terms_not_agreed_to, h4, Cache.empty, hsch, hids]

/-- Witness for C10: a cache whose entries are all present-but-empty
behaves exactly like the empty cache at a concrete store. -/
theorem C10_witness :
    (cacheWithEmpties.active_terms "a" = none ∧
      cacheWithEmpties.active_terms_ids = some [] ∧
      cacheWithEmpties.active_terms_list = some [] ∧
      cacheWithEmpties.not_agreed_terms = some []) ∧
    ((TermsAndConditions.get_active dbPartialAccept cacheWithEmpties "a").1 =
        (TermsAndConditions.get_active dbPartialAccept Cache.empty "a").1 ∧
      (TermsAndConditions.get_active_terms_ids dbPartialAccept cacheWithEmpties).1 =
        (TermsAndConditions.get_active_terms_ids dbPartialAccept Cache.empty).1 ∧
      (TermsAndConditions.get_active_terms_list dbPartialAccept cacheWithEmpties).1 =
        (TermsAndConditions.get_active_terms_list dbPartialAccept Cache.empty).1 ∧
      (TermsAndConditions.get_active_terms_not_agreed_to dbPartialAccept cacheWithEmpties 7).1 =
        (TermsAndConditions.get_active_terms_not_agreed_to dbPartialAccept Cache.empty 7).1) :=
  ⟨⟨rfl, rfl, rfl, rfl⟩,
    C10_empty_cache_is_miss dbPartialAccept cacheWithEmpties "a" 7 rfl
      (Or.inr rfl) (Or.inr rfl) (Or.inr rfl)⟩

/-- Claim C4: with the schema in place, whenever `get_active` yields
`active`, `agreed_to_latest(user, slug)` returns the very boolean that
`agreed_to_terms(user, active)` returns whenever the latter returns one;
when `agreed_to_terms` would instead surface the duplicate-row anomaly
(`MultipleObjectsReturned`), `agreed_to_latest` tolerates it as `True`; and
`agreed_to_latest` answers `True` exactly when an acceptance row for
`(user, active)` exists. -/
theorem C4_agreed_to_latest_equiv (db : Db) (c : Cache) (user : Nat) (slug : String)
    (hs : db.schemaOk = true) (active : Option TermsAndConditions)
    (hact : (TermsAndConditions.get_active db c slug).1 = .ok active) :
    (∀ b, TermsAndConditions.agreed_to_terms db user active = .ok b →
        (TermsAndConditions.agreed_to_latest db c user slug).1 = .ok b) ∧
    (TermsAndConditions.agreed_to_terms db user active = .error .multipleObjectsReturned →
        (TermsAndConditions.agreed_to_latest db c user slug).1 = .ok true) ∧
    ((TermsAndConditions.agreed_to_latest db c user slug).1 = .ok true ↔
      ∃ ut ∈ db.userterms, ut.user = user ∧
        some ut.terms_id = active.map (fun t => t.id)) := by
  cases hm : db.userterms.filter
      (fun u => u.user == user && some u.terms_id == active.map (fun t => t.id)) with
  | nil =>
    have hg : UserTermsAndConditions.objects_get db user (active.map (fun t => t.id)) =
        .error .doesNotExist := by
      simp [UserTermsAndConditions.objects_get, hs, hm]
    have hlat : (TermsAndConditions.agreed_to_latest db c user slug).1 = .ok false := by
      simp [TermsAndConditions.agreed_to_latest, hact, hg]
    have hterms : TermsAndConditions.agreed_to_terms db user active = .ok false := by
      simp [TermsAndConditions.agreed_to_terms, hg]
    refine ⟨?_, ?_, ?_⟩
    · intro b hb
      rw [hterms] at hb
      cases hb
      exact hlat
    · intro hmult
      rw [hterms] at hmult
      simp at hmult
    · rw [hlat]
      constructor
      · intro h
        simp at h
      · rintro ⟨ut, hut, h1, h2⟩
        have : ut ∈ db.userterms.filter
            (fun u => u.user == user && some u.terms_id == active.map (fun t => t.id)) :=
          (userterms_filter_spec db user _ ut).mpr ⟨hut, h1, h2⟩
        rw [hm] at this
        simp at this
  | cons ut rest =>
    have hmem : ut ∈ db.userterms.filter
        (fun u => u.user == user && some u.terms_id == active.map (fun t => t.id)) := by
      rw [hm]
      exact List.mem_cons_self _ _
    have hex : ∃ u ∈ db.userterms, u.user = user ∧
        some u.terms_id = active.map (fun t => t.id) := by
      obtain ⟨h1, h2, h3⟩ := (userterms_filter_spec db user _ ut).mp hmem
      exact ⟨ut, h1, h2, h3⟩
    cases rest with
    | nil =>
      have hg : UserTermsAndConditions.objects_get db user (active.map (fun t => t.id)) =
          .ok ut := by
        simp [UserTermsAndConditions.objects_get, hs, hm]
      have hlat : (TermsAndConditions.agreed_to_latest db c user slug).1 = .ok true := by
        simp [TermsAndConditions.agreed_to_latest, hact, hg]
      have hterms : TermsAndConditions.agreed_to_terms db user active = .ok true := by
        simp [TermsAndConditions.agreed_to_terms, hg]
      refine ⟨?_, ?_, ?_⟩
      · intro b hb
        rw [hterms] at hb
        cases hb
        exact hlat
      · intro hmult
        rw [hterms] at hmult
        simp at hmult
      · rw [hlat]
        exact ⟨fun _ => hex, fun _ => rfl⟩
    | cons ut2 rest2 =>
      have hg : UserTermsAndConditions.objects_get db user (active.map (fun t => t.id)) =
          .error .multipleObjectsReturned := by
        simp [UserTermsAndConditions.objects_get, hs, hm]
      have hlat : (TermsAndConditions.agreed_to_latest db c user slug).1 = .ok true := by
        simp [TermsAndConditions.agreed_to_latest, hact, hg]
      have hterms : TermsAndConditions.agreed_to_terms db user active =
          .error .multipleObjectsReturned := by
        simp [TermsAndConditions.agreed_to_terms, hg]
      refine ⟨?_, ?_, ?_⟩
      · intro b hb
        rw [hterms] at hb
        simp at hb
      · intro _
        exact hlat
      · rw [hlat]
        exact ⟨fun _ => hex, fun _ => rfl⟩

/-- Witness for C4: user 7 accepted the single active version of
`site-terms`; both checks agree and answer `True`. -/
theorem C4_witness :
    (dbAccepted.schemaOk = true ∧
      (TermsAndConditions.get_active dbAccepted Cache.empty "site-terms").1 =
        .ok (some ⟨1, "site-terms", some 1⟩)) ∧
    ((∀ b, TermsAndConditions.agreed_to_terms dbAccepted 7
          (some ⟨1, "site-terms", some 1⟩) = .ok b →
        (TermsAndConditions.agreed_to_latest dbAccepted Cache.empty 7 "site-terms").1 =
          .ok b) ∧
      (TermsAndConditions.agreed_to_terms dbAccepted 7 (some ⟨1, "site-terms", some 1⟩) =
          .error .multipleObjectsReturned →
        (TermsAndConditions.agreed_to_latest dbAccepted Cache.empty 7 "site-terms").1 =
          .ok true) ∧
      ((TermsAndConditions.agreed_to_latest dbAccepted Cache.empty 7 "site-terms").1 =
          .ok true ↔
        ∃ ut ∈ dbAccepted.userterms, ut.user = 7 ∧
          some ut.terms_id = (some (⟨1, "site-terms", some 1⟩ : TermsAndConditions)).map
            (fun t => t.id))) :=
  ⟨⟨rfl, by decide⟩,
    C4_agreed_to_latest_equiv dbAccepted Cache.empty 7 "site-terms" rfl
      (some ⟨1, "site-terms", some 1⟩) (by decide)⟩

/-- Under the per-(user, terms) uniqueness invariant, the existence filter
matches at most one row. -/
theorem filter_len_le_one_of_unique {l : List UserTermsAndConditions}
    (hp : List.Pairwise (fun a b : UserTermsAndConditions =>
        ¬(a.user = b.user ∧ a.terms_id = b.terms_id)) l)
    (user : Nat) (tid : Option Nat) :
    (l.filter (fun u => u.user == user && some u.terms_id == tid)).length ≤ 1 := by
  induction l with
  | nil => simp
  | cons a l ih =>
    obtain ⟨hhead, htail⟩ := List.pairwise_cons.mp hp
    rw [List.filter_cons]
    by_cases hpa : (a.user == user && some a.terms_id == tid) = true
    · rw [if_pos hpa]
      have hnil : l.filter (fun u => u.user == user && some u.terms_id == tid) = [] := by
        rw [List.filter_eq_nil_iff]
        intro b hb hpb
        apply hhead b hb
        rw [Bool.and_eq_true, beq_iff_eq, beq_iff_eq] at hpa
        rw [Bool.and_eq_true, beq_iff_eq, beq_iff_eq] at hpb
        exact ⟨hpa.1.trans hpb.1.symm,
          Option.some.inj (hpa.2.trans hpb.2.symm)⟩
      rw [hnil]
      simp
    · rw [if_neg hpa]
      exact ih htail

/-- Claim C9: under the `(user, terms)` uniqueness invariant declared by
`UserTermsAndConditions.Meta.unique_together`, with the schema in place,
`objects.get` never raises `MultipleObjectsReturned` — so that branch of
`agreed_to_latest` is unreachable — and both existence checks reach a
normal boolean result. -/
theorem C9_unique_means_no_multiple (db : Db) (c : Cache) (user : Nat) (slug : String)
    (hu : List.Pairwise (fun a b : UserTermsAndConditions =>
        ¬(a.user = b.user ∧ a.terms_id = b.terms_id)) db.userterms)
    (hs : db.schemaOk = true) :
    (∀ tid, UserTermsAndConditions.objects_get db user tid ≠
        .error .multipleObjectsReturned) ∧
    (∀ terms, ∃ b, TermsAndConditions.agreed_to_terms db user terms = .ok b) ∧
    (∃ b, (TermsAndConditions.agreed_to_latest db c user slug).1 = .ok b) := by
  have hget : ∀ tid : Option Nat,
      UserTermsAndConditions.objects_get db user tid = .error .doesNotExist ∨
      ∃ u, UserTermsAndConditions.objects_get db user tid = .ok u := by
    intro tid
    have hlen := filter_len_le_one_of_unique hu user tid
    cases hm : db.userterms.filter (fun u => u.user == user && some u.terms_id == tid) with
    | nil => exact Or.inl (by simp [UserTermsAndConditions.objects_get, hs, hm])
    | cons u rest =>
      cases rest with
      | nil => exact Or.inr ⟨u, by simp [UserTermsAndConditions.objects_get, hs, hm]⟩
      | cons u2 rest2 =>
        rw [hm] at hlen
        simp at hlen
  refine ⟨?_, ?_, ?_⟩
  · intro tid
    rcases hget tid with h | ⟨u, h⟩ <;> rw [h] <;> simp
  · intro terms
    rcases hget (terms.map (fun t => t.id)) with h | ⟨u, h⟩
    · exact ⟨false, by simp [TermsAndConditions.agreed_to_terms, h]⟩
    · exact ⟨true, by simp [TermsAndConditions.agreed_to_terms, h]⟩
  · obtain ⟨active, hact⟩ := get_active_ok db c slug hs
    rcases hget (active.map (fun t => t.id)) with h | ⟨u, h⟩
    · exact ⟨false, by simp [TermsAndConditions.agreed_to_latest, hact, h]⟩
    · exact ⟨true, by simp [TermsAndConditions.agreed_to_latest, hact, h]⟩

/-- Witness for C9 at a store satisfying the uniqueness invariant. -/
theorem C9_witness :
    (List.Pairwise (fun a b : UserTermsAndConditions =>
        ¬(a.user = b.user ∧ a.terms_id = b.terms_id)) dbAccepted.userterms ∧
      dbAccepted.schemaOk = true) ∧
    ((∀ tid, UserTermsAndConditions.objects_get dbAccepted 7 tid ≠
        .error .multipleObjectsReturned) ∧
      (∀ terms, ∃ b, TermsAndConditions.agreed_to_terms dbAccepted 7 terms = .ok b) ∧
      (∃ b, (TermsAndConditions.agreed_to_latest dbAccepted Cache.empty 7 "site-terms").1 =
        .ok b)) :=
  ⟨⟨by decide, rfl⟩,
    C9_unique_means_no_multiple dbAccepted Cache.empty 7 "site-terms" (by decide) rfl⟩

/-- Claim C6: the `'tandc_not_agreed_terms'` cache key does not vary by
user.  If a call for user A misses the cache and computes a non-empty
result, a subsequent call for ANY user B against the updated cache returns
A's list verbatim instead of recomputing B's. -/
theorem C6_stale_for_other_user (db : Db) (c : Cache) (userA userB : Nat)
    (hn : c.not_agreed_terms = none ∨ c.not_agreed_terms = some [])
    (hs : db.schemaOk = true) (l : List TermsAndConditions)
    (hl : (TermsAndConditions.get_active_terms_not_agreed_to db c userA).1 = .ok l)
    (hne : l ≠ []) :
    (TermsAndConditions.get_active_terms_not_agreed_to db
        (TermsAndConditions.get_active_terms_not_agreed_to db c userA).2 userB).1 =
      .ok l := by
  have key : (TermsAndConditions.get_active_terms_not_agreed_to db c userA).2.not_agreed_terms
      = some l := by
    rcases hn with hn | hn <;>
      simp only [TermsAndConditions.get_active_terms_not_agreed_to, hn, hs, if_true] at hl ⊢ <;>
      simp_all
  obtain ⟨c2, hc2⟩ :
      ∃ c2, (TermsAndConditions.get_active_terms_not_agreed_to db c userA).2 = c2 :=
    ⟨_, rfl⟩
  rw [hc2] at key ⊢
  cases hl2 : l with
  | nil => exact absurd hl2 hne
  | cons t ts =>
    subst hl2
    simp [TermsAndConditions.get_active_terms_not_agreed_to, key]

/-- Witness for C6: user 1 (no acceptances) populates the cache with both
active rows; the subsequent call for user 2 — whose fresh result would be
only the slug-`b` row — receives user 1's cached list. -/
theorem C6_witness :
    ((Cache.empty.not_agreed_terms = none ∨ Cache.empty.not_agreed_terms = some []) ∧
      dbTwoUsers.schemaOk = true ∧
      (TermsAndConditions.get_active_terms_not_agreed_to dbTwoUsers Cache.empty 1).1 =
        .ok [⟨1, "a", some 1⟩, ⟨2, "b", some 2⟩] ∧
      ([⟨1, "a", some 1⟩, ⟨2, "b", some 2⟩] : List TermsAndConditions) ≠ [] ∧
      (TermsAndConditions.get_active_terms_not_agreed_to dbTwoUsers Cache.empty 2).1 =
        .ok [⟨2, "b", some 2⟩]) ∧
    (TermsAndConditions.get_active_terms_not_agreed_to dbTwoUsers
        (TermsAndConditions.get_active_terms_not_agreed_to dbTwoUsers Cache.empty 1).2 2).1 =
      .ok [⟨1, "a", some 1⟩, ⟨2, "b", some 2⟩] :=
  ⟨⟨Or.inl rfl, rfl, by decide, by decide, by decide⟩,
    C6_stale_for_other_user dbTwoUsers Cache.empty 1 2 (Or.inl rfl) rfl
      [⟨1, "a", some 1⟩, ⟨2, "b", some 2⟩] (by decide) (by decide)⟩

/-- A slug appears in the grouped slugs exactly when some stored row of
that slug passes the raw WHERE clause. -/
theorem sortedActiveSlugs_mem (db : Db) (sl : String) :
    sl ∈ sortedActiveSlugs db ↔
      ∃ t ∈ db.terms, t.slug = sl ∧ t.strictlyActiveAt db.now = true := by
  simp only [sortedActiveSlugs, List.mem_insertionSort, List.mem_dedup, List.mem_map,
    List.mem_filter]
  constructor
  · rintro ⟨t, ⟨ht, hstrict⟩, hslug⟩
    exact ⟨t, ht, hslug, hstrict⟩
  · rintro ⟨t, ht, hslug, hstrict⟩
    exact ⟨t, ⟨ht, hstrict⟩, hslug⟩

/-- The group winner for a slug is a stored row of that slug passing the
WHERE clause and carrying the group's maximal `date_active`. -/
theorem group_latest_spec (db : Db) (sl : String) {w : TermsAndConditions}
    (hw : latestByDateActive
        (db.terms.filter (fun t => t.slug == sl && t.strictlyActiveAt db.now)) = some w) :
    w ∈ db.terms ∧ w.slug = sl ∧ w.strictlyActiveAt db.now = true ∧
      ∀ t ∈ db.terms, t.slug = sl → t.strictlyActiveAt db.now = true →
        dateOf t ≤ dateOf w := by
  have hmem := latestByDateActive_mem hw
  rw [List.mem_filter, Bool.and_eq_true, beq_iff_eq] at hmem
  obtain ⟨h1, h2, h3⟩ := hmem
  refine ⟨h1, h2, h3, ?_⟩
  intro t ht hslug hstrict
  exact latestByDateActive_le hw t
    (by rw [List.mem_filter]; exact ⟨ht, by simp [hslug, hstrict]⟩)

/-- The group winners come in strictly increasing slug order: one winner
per slug, sorted. -/
theorem groupMaxRows_pairwise (db : Db) :
    List.Pairwise (fun a b : TermsAndConditions =>
      slugLe a.slug b.slug ∧ a.slug ≠ b.slug) (groupMaxRows db) := by
  have hsorted : List.Sorted slugLe (sortedActiveSlugs db) :=
    List.sorted_insertionSort slugLe _
  have hnodup : (sortedActiveSlugs db).Nodup :=
    ((List.perm_insertionSort slugLe _).nodup_iff).mpr (List.nodup_dedup _)
  have hpw : List.Pairwise (fun a b : String => slugLe a b ∧ a ≠ b)
      (sortedActiveSlugs db) :=
    List.Pairwise.imp₂ (fun _ _ h1 h2 => ⟨h1, h2⟩) hsorted hnodup
  rw [groupMaxRows, List.pairwise_filterMap]
  refine hpw.imp ?_
  intro a b hab w hw w' hw'
  rw [Option.mem_def] at hw hw'
  obtain ⟨_, hwslug, _, _⟩ := group_latest_spec db a hw
  obtain ⟨_, hw'slug, _, _⟩ := group_latest_spec db b hw'
  rw [hwslug, hw'slug]
  exact hab

/-- Counterexample to C2 as stated: a slug whose only version is dated
exactly `now` (non-null and non-future under `date_active ≤ now`) gets no
entry in `get_active_terms_ids`, because the raw SQL filters with the
strict `date_active < now`. -/
theorem C2_counterexample :
    (∃ t ∈ dbBoundary.terms, t.slug = "s" ∧
        ∃ d, t.date_active = some d ∧ d ≤ dbBoundary.now) ∧
    (TermsAndConditions.get_active_terms_ids dbBoundary Cache.empty).1 = [] := by
  constructor
  · exact ⟨⟨1, "s", some 10⟩, by decide, rfl, 10, rfl, by decide⟩
  · decide

/-- Amended C2: on a cache miss with the schema in place,
`get_active_terms_ids` returns, in strictly increasing slug order, exactly
one ID per slug having at least one version with non-null
`date_active < now` (strictly earlier than now, not `≤ now`), namely the ID
of that slug's row with the maximal `date_active` among those versions. -/
theorem C2_amended_group_max (db : Db) (c : Cache)
    (hc : c.active_terms_ids = none ∨ c.active_terms_ids = some [])
    (hs : db.schemaOk = true) :
    (TermsAndConditions.get_active_terms_ids db c).1 =
      (groupMaxRows db).map (fun t => t.id) ∧
    List.Pairwise (fun a b : TermsAndConditions =>
      slugLe a.slug b.slug ∧ a.slug ≠ b.slug) (groupMaxRows db) ∧
    (∀ w ∈ groupMaxRows db, w ∈ db.terms ∧
      ∃ d, w.date_active = some d ∧ d < db.now ∧
        ∀ t ∈ db.terms, t.slug = w.slug → ∀ d', t.date_active = some d' →
          d' < db.now → d' ≤ d) ∧
    (∀ t ∈ db.terms, ∀ d, t.date_active = some d → d < db.now →
      ∃ w ∈ groupMaxRows db, w.slug = t.slug) := by
  refine ⟨?_, groupMaxRows_pairwise db, ?_, ?_⟩
  · rcases hc with hc | hc <;> simp [TermsAndConditions.get_active_terms_ids, hc, hs]
  · intro w hw
    rw [groupMaxRows] at hw
    obtain ⟨sl, _, hlat⟩ := List.mem_filterMap.mp hw
    obtain ⟨h1, h2, h3, h4⟩ := group_latest_spec db sl hlat
    refine ⟨h1, ?_⟩
    cases hd : w.date_active with
    | none => rw [TermsAndConditions.strictlyActiveAt, hd] at h3; cases h3
    | some d =>
      have hdn : d < db.now := by
        rw [TermsAndConditions.strictlyActiveAt, hd] at h3
        exact of_decide_eq_true h3
      refine ⟨d, rfl, hdn, ?_⟩
      intro t ht hslug d' hd' hdn'
      have hstrict : t.strictlyActiveAt db.now = true := by
        rw [TermsAndConditions.strictlyActiveAt, hd']
        exact decide_eq_true hdn'
      have := h4 t ht (hslug.trans h2) hstrict
      rw [dateOf, dateOf, hd, hd'] at this
      exact this
  · intro t ht d hd hdn
    have hstrict : t.strictlyActiveAt db.now = true := by
      rw [TermsAndConditions.strictlyActiveAt, hd]
      exact decide_eq_true hdn
    have hsl : t.slug ∈ sortedActiveSlugs db :=
      (sortedActiveSlugs_mem db t.slug).mpr ⟨t, ht, rfl, hstrict⟩
    have hfe : t ∈ db.terms.filter
        (fun u => u.slug == t.slug && u.strictlyActiveAt db.now) := by
      rw [List.mem_filter]
      exact ⟨ht, by simp [hstrict]⟩
    obtain ⟨w, hw⟩ := latestByDateActive_of_ne_nil (List.ne_nil_of_mem hfe)
    refine ⟨w, ?_, (group_latest_spec db t.slug hw).2.1⟩
    rw [groupMaxRows]
    exact List.mem_filterMap.mpr ⟨t.slug, hsl, hw⟩

/-- Witness for the amended C2: two slugs with two activated versions each
(one of them out of order in the table); the IDs come back slug-sorted,
one per slug, each the ID of that slug's maximal activated version. -/
theorem C2_witness :
    ((Cache.empty.active_terms_ids = none ∨ Cache.empty.active_terms_ids = some []) ∧
      dbTwoSlugs.schemaOk = true ∧
      (TermsAndConditions.get_active_terms_ids dbTwoSlugs Cache.empty).1 = [3, 1]) ∧
    ((TermsAndConditions.get_active_terms_ids dbTwoSlugs Cache.empty).1 =
        (groupMaxRows dbTwoSlugs).map (fun t => t.id) ∧
      List.Pairwise (fun a b : TermsAndConditions =>
        slugLe a.slug b.slug ∧ a.slug ≠ b.slug) (groupMaxRows dbTwoSlugs) ∧
      (∀ w ∈ groupMaxRows dbTwoSlugs, w ∈ dbTwoSlugs.terms ∧
        ∃ d, w.date_active = some d ∧ d < dbTwoSlugs.now ∧
          ∀ t ∈ dbTwoSlugs.terms, t.slug = w.slug → ∀ d', t.date_active = some d' →
            d' < dbTwoSlugs.now → d' ≤ d) ∧
      (∀ t ∈ dbTwoSlugs.terms, ∀ d, t.date_active = some d → d < dbTwoSlugs.now →
        ∃ w ∈ groupMaxRows dbTwoSlugs, w.slug = t.slug)) :=
  ⟨⟨Or.inl rfl, rfl, by decide⟩,
    C2_amended_group_max dbTwoSlugs Cache.empty (Or.inl rfl) rfl⟩

/-- `List.contains` agrees with membership on `Nat` ids. -/
theorem nat_contains_iff {l : List Nat} {a : Nat} : l.contains a = true ↔ a ∈ l := by
  rw [List.contains_iff_exists_mem_beq]
  simp

/-- Claim C5: with the schema in place, nothing cached under the
not-agreed key, and distinct primary keys, `get_active_terms_not_agreed_to`
returns, in slug order and without duplicates, exactly the stored rows
whose id is in `get_active_terms_ids` and for which the user has no
acceptance row. -/
theorem C5_not_agreed_exact (db : Db) (c : Cache) (user : Nat)
    (hs : db.schemaOk = true)
    (hn : c.not_agreed_terms = none ∨ c.not_agreed_terms = some [])
    (hid : (db.terms.map (fun t => t.id)).Nodup) :
    ∃ l, (TermsAndConditions.get_active_terms_not_agreed_to db c user).1 = .ok l ∧
      (∀ t, t ∈ l ↔ t ∈ db.terms ∧
          t.id ∈ (TermsAndConditions.get_active_terms_ids db c).1 ∧
          ¬ ∃ ut ∈ db.userterms, ut.user = user ∧ ut.terms_id = t.id) ∧
      List.Pairwise (fun a b => slugLe a.slug b.slug) l ∧ l.Nodup := by
  refine ⟨sortBySlug
      ((db.terms.filter
          (fun t => (TermsAndConditions.get_active_terms_ids db c).1.contains t.id)).filter
        (fun t => !(db.userterms.any (fun ut => ut.user == user && ut.terms_id == t.id)))),
    ?_, ?_, ?_, ?_⟩
  · rcases hn with hn | hn <;>
      simp [TermsAndConditions.get_active_terms_not_agreed_to, hn, hs]
  · intro t
    simp only [sortBySlug, List.mem_insertionSort, List.mem_filter]
    constructor
    · rintro ⟨⟨ht, hcont⟩, hnot⟩
      refine ⟨ht, nat_contains_iff.mp hcont, ?_⟩
      rintro ⟨ut, hut, h1, h2⟩
      rw [Bool.not_eq_true', List.any_eq_false] at hnot
      exact hnot ut hut (by simp [h1, h2])
    · rintro ⟨ht, hmem, hnone⟩
      refine ⟨⟨ht, nat_contains_iff.mpr hmem⟩, ?_⟩
      rw [Bool.not_eq_true', List.any_eq_false]
      intro ut hut hpred
      rw [Bool.and_eq_true, beq_iff_eq, beq_iff_eq] at hpred
      exact hnone ⟨ut, hut, hpred.1, hpred.2⟩
  · exact List.sorted_insertionSort (fun a b : TermsAndConditions => slugLe a.slug b.slug) _
  · have h1 : db.terms.Nodup := List.Nodup.of_map _ hid
    have h2 := (h1.filter
      (fun t => (TermsAndConditions.get_active_terms_ids db c).1.contains t.id)).filter
      (fun t => !(db.userterms.any (fun ut => ut.user == user && ut.terms_id == t.id)))
    exact ((List.perm_insertionSort
      (fun a b : TermsAndConditions => slugLe a.slug b.slug) _).nodup_iff).mpr h2

/-- Witness for C5: slugs `a` and `b` both active, user 7 accepted only
`a`'s active version; the call returns exactly the `b` row. -/
theorem C5_witness :
    (dbPartialAccept.schemaOk = true ∧
      (Cache.empty.not_agreed_terms = none ∨ Cache.empty.not_agreed_terms = some []) ∧
      (dbPartialAccept.terms.map (fun t => t.id)).Nodup ∧
      (TermsAndConditions.get_active_terms_not_agreed_to dbPartialAccept Cache.empty 7).1 =
        .ok [⟨2, "b", some 2⟩]) ∧
    (∃ l, (TermsAndConditions.get_active_terms_not_agreed_to dbPartialAccept
          Cache.empty 7).1 = .ok l ∧
      (∀ t, t ∈ l ↔ t ∈ dbPartialAccept.terms ∧
          t.id ∈ (TermsAndConditions.get_active_terms_ids dbPartialAccept Cache.empty).1 ∧
          ¬ ∃ ut ∈ dbPartialAccept.userterms, ut.user = 7 ∧ ut.terms_id = t.id) ∧
      List.Pairwise (fun a b => slugLe a.slug b.slug) l ∧ l.Nodup) :=
  ⟨⟨rfl, Or.inl rfl, by decide, by decide⟩,
    C5_not_agreed_exact dbPartialAccept Cache.empty 7 rfl (Or.inl rfl) (by decide)⟩
